import Mathlib

/-
Verification of the fabric subscriber (Service/app/models/aci/ept/ept_subscriber.py).

The definitions below are a shallow embedding of the subscriber's dispatch,
event-handling and restart logic.  Pure fragments of the Python code become
Lean functions; mutation of `self` and of worker objects becomes explicit
state passing.  Redis pushes and pub/sub publishes are modelled as output
traces; push failures (which the code catches and logs) are modelled by a
success oracle attached to each push record.
-/

namespace EptSub

/-- Work types used by the subscriber (ept_msg.WORK_TYPE members that appear in
ept_subscriber.py). -/
inductive WorkType
  | STD_MO
  | RAW
  | EPM_IP_EVENT
  | EPM_MAC_EVENT
  | EPM_RS_IP_EVENT
  | FLUSH_CACHE
  | FABRIC_WATCH_PAUSE
  | FABRIC_WATCH_RESUME
  | FABRIC_EPM_EOF
  | SETTINGS_RELOAD
  | DELETE_EPT
  | WATCH_NODE
deriving Repr, DecidableEq, Inhabited

/-- Work message (ept_msg.eptMsgWork) as used by `send_msg`: carries the
address, role, queue number, vnid, stamped sequence number and fabric name.
The opaque payload data is not needed by the dispatch logic and is elided. -/
structure EptMsgWork where
  addr : String
  role : String
  qnum : Nat
  vnid : Nat
  seq : Nat
  fabric : String
  work_type : WorkType
  force : Bool
deriving Repr, DecidableEq, Inhabited

/-- Modelled from the spec: `get_msg_hash` (common.py, not among the given
sources).  Spec 4.1: "The partition hash for routing is a stable function of
`(vnid, addr)` ... a fast non-cryptographic hash suffices."  Any fixed pure
function of (vnid, addr) realises this; we use a simple polynomial string
hash seeded with the vnid. -/
def get_msg_hash (m : EptMsgWork) : Nat :=
  m.addr.data.foldl (fun h c => h * 31 + c.toNat) m.vnid

/-- Modelled from the spec: TrackedWorker (manager-side class, not among the
given sources).  Spec 3: Worker `{workerId, role, queues[], lastSeq[],
perQueueLock[]}`.  The mutable `last_seq` array is modelled separately in
`SendState` (keyed by worker_id and queue number) because worker objects are
shared by reference between `active_workers` and the grouping dict in
`send_msg`; locks are not modelled (the embedding is sequential). -/
structure TrackedWorker where
  worker_id : String
  role : String
  queues : List String
deriving Repr, DecidableEq, Inhabited

/-- Per-queue tx statistics of the subscriber (`self.queue_stats` plus
`increment_stats`).  `known` is the set of queue names present in
`self.queue_stats`; `tx` gives `total_tx_msg` per queue name. -/
structure SubStats where
  known : List String
  tx : String → Nat

/-- Embedding of `increment_stats(queue, tx=True, count)` (lines 276-287):
when `queue` is a known queue, add `count` to that queue's counter and to the
"total" counter.  (The rx direction is never used by the code modelled here.) -/
def increment_stats (s : SubStats) (queue : String) (count : Nat) : SubStats :=
  if queue ∈ s.known then
    { s with tx := (fun q =>
        s.tx q + (if q = queue then count else 0) + (if q = "total" then count else 0)) }
  else s

/-- Mutable state touched by `send_msg`/`send_msg_direct`: the per-worker
per-queue `last_seq` counters and the queue statistics. -/
structure SendState where
  seqs : String → Nat → Nat
  stats : SubStats

/-- Routing decision for one message inside `send_msg` (lines 356-370):
look up `active_workers[m.role]` (absent role or empty list: warn and drop);
pick `workers[get_msg_hash(m) % len(workers)]`; if `m.qnum` is out of range
clamp it to the last queue, or drop the message when the worker has no
queues at all.  Returns the chosen worker and effective queue number. -/
def routeMsg (active_workers : List (String × List TrackedWorker)) (m : EptMsgWork) :
    Option (TrackedWorker × Nat) :=
  match active_workers.lookup m.role with
  | none => none
  | some ws =>
    if ws.length = 0 then none
    else
      let worker := ws.getD (get_msg_hash m % ws.length) default
      if worker.queues.length ≤ m.qnum then
        if 0 < worker.queues.length then some (worker, worker.queues.length - 1)
        else none
      else some (worker, m.qnum)

/-- Appending one message to the bulk list of a (worker, qnum) group
(lines 376-378): if the last bulk already holds `maxLen` messages a fresh
bulk is started, then the message is appended to the last bulk. -/
def bulkAppend (maxLen : Nat) : List (List EptMsgWork) → EptMsgWork → List (List EptMsgWork)
  | [], m => [[m]]
  | [b], m => if maxLen ≤ b.length then [b, [m]] else [b ++ [m]]
  | b :: rest, m => b :: bulkAppend maxLen rest m

/-- Per-queue groups of one worker: association list from qnum to its bulks,
in insertion order (`work[worker_id]`, lines 372-378).  A new group starts
from a single empty bulk (`[eptMsgBulk()]`), which `bulkAppend` then fills. -/
def groupAdd (maxLen : Nat) (groups : List (Nat × List (List EptMsgWork)))
    (q : Nat) (m : EptMsgWork) : List (Nat × List (List EptMsgWork)) :=
  match groups with
  | [] => [(q, bulkAppend maxLen [[]] m)]
  | (q', bulks) :: rest =>
    if q' = q then (q', bulkAppend maxLen bulks m) :: rest
    else (q', bulks) :: groupAdd maxLen rest q m

/-- Grouping dict of `send_msg` (`work`, lines 349-378): association list from
worker to its per-queue groups, keyed by `worker_id`, in insertion order. -/
abbrev Work := List (TrackedWorker × List (Nat × List (List EptMsgWork)))

/-- Inserting one routed message into the grouping dict (lines 372-378). -/
def workAdd (maxLen : Nat) (w : Work) (worker : TrackedWorker) (q : Nat)
    (m : EptMsgWork) : Work :=
  match w with
  | [] => [(worker, [(q, bulkAppend maxLen [[]] m)])]
  | (tw, groups) :: rest =>
    if tw.worker_id = worker.worker_id then (tw, groupAdd maxLen groups q m) :: rest
    else (tw, groups) :: workAdd maxLen rest worker q m

/-- One iteration of the first loop of `send_msg` (lines 354-383): set the
fabric, route the message (dropping it when routing fails), stamp the next
sequence number for the destination (worker, queue) under that queue's lock,
insert the stamped message into the grouping dict and update the tx
statistics of the destination queue.  In the Python code the message object
is appended to the bulk first and mutated afterwards; since the bulk holds a
reference, the net content is the stamped message, which is what we insert. -/
def sendStep (fabric : String) (maxLen : Nat)
    (aw : List (String × List TrackedWorker)) (acc : Work × SendState)
    (m : EptMsgWork) : Work × SendState :=
  let m1 := { m with fabric := fabric }
  match routeMsg aw m1 with
  | none => acc
  | some (worker, q) =>
    let newSeq := acc.2.seqs worker.worker_id q + 1
    let m2 := { m1 with qnum := q, seq := newSeq }
    let w' := workAdd maxLen acc.1 worker q m2
    let seqs' := fun wid qn =>
      if wid = worker.worker_id ∧ qn = q then newSeq else acc.2.seqs wid qn
    let stats' := increment_stats acc.2.stats (worker.queues.getD q "") 1
    (w', ⟨seqs', stats'⟩)

/-- Payload of one push to a worker queue: either a plain message (a group
bulk of size one is unwrapped, line 393-394) or a bulk envelope carrying an
outer sequence number and the inner messages. -/
inductive Payload
  | single (m : EptMsgWork)
  | bulk (seq : Nat) (msgs : List EptMsgWork)
deriving Repr, DecidableEq, Inhabited

/-- Conversion of one accumulated bulk to the pushed payload (lines 391-397):
a bulk holding exactly one message is sent as that plain message, otherwise
the bulk's outer seq is set to the seq of its last inner message.  (The code
would raise on an empty bulk at `bulk.msgs[-1]`; with `maxLen ≥ 1` empty
bulks never occur, and the `getD default` fallback is unreachable.) -/
def bulkPayload (b : List EptMsgWork) : Payload :=
  match b with
  | [m] => Payload.single m
  | _ => Payload.bulk ((b.getLast?.getD default).seq) b

/-- Record of one attempted redis push (lines 398-408): destination queue
name, payload, whether it was an lpush (`prepend`) and whether the push
succeeded.  A failed push is logged and swallowed by the code, so failure
has no further effect on the state. -/
structure Push where
  queue : String
  payload : Payload
  prepend : Bool
  ok : Bool
deriving Repr, DecidableEq, Inhabited

/-- Flattening the grouping dict into the ordered sequence of pushes
(lines 387-397): iterate workers, their queues and their bulks in insertion
order. -/
def pushSeq (w : Work) : List (String × Payload) :=
  w.foldr (fun wg acc =>
    wg.2.foldr (fun qb acc2 =>
      qb.2.map (fun b => (wg.1.queues.getD qb.1 "", bulkPayload b)) ++ acc2) acc) []

/-- Attaching push outcomes: the i-th attempted push succeeds iff `pushOk i`.
This models the try/except around each `lpush`/`rpush` (lines 398-408). -/
def attachOk (pushOk : Nat → Bool) (prepend : Bool) : Nat → List (String × Payload) → List Push
  | _, [] => []
  | i, (qn, pl) :: rest => ⟨qn, pl, prepend, pushOk i⟩ :: attachOk pushOk prepend (i + 1) rest

/-- Embedding of `send_msg(msg, prepend)` (lines 338-408): group the messages
by (worker, qnum) with hash routing, stamping sequence numbers and tx
statistics as each message is grouped, then push every accumulated bulk
(one push per bulk; a size-one bulk as a plain message).  Returns the final
sequencing/stats state and the trace of attempted pushes. -/
def send_msg (fabric : String) (maxLen : Nat)
    (aw : List (String × List TrackedWorker)) (msgs : List EptMsgWork)
    (prepend : Bool) (pushOk : Nat → Bool) (st : SendState) :
    SendState × List Push :=
  let r := msgs.foldl (sendStep fabric maxLen aw) ([], st)
  (r.2, attachOk pushOk prepend 0 (pushSeq r.1))

/-- Embedding of `send_msg_direct(worker, msg)` (lines 410-433): for each
message, a qnum beyond the worker's queues is logged and the message is
dropped (no sequence number consumed, no stats, no push); otherwise the
message is stamped, counted and rpushed individually (never as a bulk and
never prepended).  The `i` argument threads the push-outcome oracle index. -/
def send_msg_direct (fabric : String) (worker : TrackedWorker) (pushOk : Nat → Bool) :
    List EptMsgWork → SendState → Nat → SendState × List Push
  | [], st, _ => (st, [])
  | m :: ms, st, i =>
    let m1 := { m with fabric := fabric }
    if worker.queues.length ≤ m1.qnum then
      send_msg_direct fabric worker pushOk ms st i
    else
      let newSeq := st.seqs worker.worker_id m1.qnum + 1
      let m2 := { m1 with seq := newSeq }
      let seqs' := fun wid qn =>
        if wid = worker.worker_id ∧ qn = m1.qnum then newSeq else st.seqs wid qn
      let stats' := increment_stats st.stats (worker.queues.getD m1.qnum "") 1
      let r := send_msg_direct fabric worker pushOk ms ⟨seqs', stats'⟩ (i + 1)
      (r.1, ⟨worker.queues.getD m1.qnum "", Payload.single m2, false, pushOk i⟩ :: r.2)

/-- Modelled from the spec: broadcast channel names (common.py, not among the
given sources; spec 6 lists the pub/sub topics).  Only their identity and
distinctness matter. -/
def WORKER_BROADCAST_CHANNEL : String := "worker_broadcast"

/-- Modelled from the spec: the watcher fan-out topic (common.py). -/
def WATCHER_BROADCAST_CHANNEL : String := "watcher_broadcast"

/-- Modelled from the spec: the subscriber-to-supervisor control topic
(common.py). -/
def MANAGER_CTRL_CHANNEL : String := "manager_ctrl"

/-- Record of one publish made by `broadcast` (lines 306-336): channel,
originating role, work type, the message's data dict (values may be null)
and the stamped per-channel sequence number. -/
structure BcastRec where
  channel : String
  role : Option String
  work_type : WorkType
  data : List (String × Option String)
  seq : Nat
deriving Repr, DecidableEq, Inhabited

/-- Argument of `broadcast`: an eptMsgWork destined for fan-out, with the
broadcast address 0 rendered as "0". -/
structure WorkItem where
  addr : String
  role : Option String
  data : List (String × Option String)
  work_type : WorkType
deriving Repr, DecidableEq, Inhabited

/-- Record of one publish on the manager control channel
(`hard_restart`, lines 782-785). -/
structure ManagerMsg where
  channel : String
  msg_type : String
  fabric : String
  reason : String
deriving Repr, DecidableEq, Inhabited

/-- Attribute dict of one event object, together with the `_ts` stamp that
`parse_event` adds (timestamps are modelled as naturals). -/
structure MoAttr where
  fields : List (String × String)
  ts : Nat
deriving Repr, DecidableEq, Inhabited

/-- One element of a subscription event as consumed by `parse_event`
(lines 855-874): a classname, and its attributes when the "attributes" key
is present (`none` models a malformed entry, which is skipped with a log). -/
structure EventEntry where
  classname : String
  attr : Option MoAttr
deriving Repr, DecidableEq, Inhabited

/-- Parsed EPM event as produced by eptEpmEventParser.parse (ept_msg.py, not
among the given sources); `handle_epm_event` enqueues its result verbatim,
even when the parser returns None, so only its shape matters here. -/
structure EpmParsed where
  classname : String
  node : Nat
  vnid : Nat
  addr : String
  ts : Nat
deriving Repr, DecidableEq, Inhabited

/-- Subscriber-instance state relevant to the event/restart/barrier logic,
plus the output traces (fabric events, broadcasts, manager publishes, db
collection writes).  Queue statistics updates along these paths are elided:
no property below mentions them. -/
structure SubscriberState where
  fabric : String
  settings_vpc_pair_type : String
  stopped : Bool
  initializing : Bool
  epm_initializing : Bool
  soft_restart_ts : Nat
  epm_eof_tracking : Option (List (String × Bool))
  epm_eof_start : Nat
  std_mo_event_queue : List EptMsgWork
  epm_event_queue : List (Option EpmParsed)
  fabric_events : List (String × String)
  broadcasts : List BcastRec
  manager_publishes : List ManagerMsg
  db_writes : List String
  worker_broadcast_seq : Nat
  watcher_broadcast_seq : Nat
deriving Repr, DecidableEq, Inhabited

/-- Embedding of `Fabric.add_fabric_event(status, description)`: the fabric
event log is an output trace.  A bare `add_fabric_event("running")` is
modelled with an empty description. -/
def add_fabric_event (s : SubscriberState) (status descr : String) : SubscriberState :=
  { s with fabric_events := s.fabric_events ++ [(status, descr)] }

/-- Embedding of `broadcast(msg)` for a single message (lines 306-336): role
"watcher" goes to the watcher channel, "worker" to the worker channel, any
other role (including none) to both; each channel has its own monotonically
increasing sequence counter, bumped before the publish. -/
def broadcast (s : SubscriberState) (item : WorkItem) : SubscriberState :=
  match item.role with
  | some "watcher" =>
    let sq := s.watcher_broadcast_seq + 1
    { s with watcher_broadcast_seq := sq,
             broadcasts := s.broadcasts ++
               [⟨WATCHER_BROADCAST_CHANNEL, item.role, item.work_type, item.data, sq⟩] }
  | some "worker" =>
    let sq := s.worker_broadcast_seq + 1
    { s with worker_broadcast_seq := sq,
             broadcasts := s.broadcasts ++
               [⟨WORKER_BROADCAST_CHANNEL, item.role, item.work_type, item.data, sq⟩] }
  | _ =>
    let wsq := s.worker_broadcast_seq + 1
    let wa := s.watcher_broadcast_seq + 1
    { s with worker_broadcast_seq := wsq, watcher_broadcast_seq := wa,
             broadcasts := s.broadcasts ++
               [⟨WORKER_BROADCAST_CHANNEL, item.role, item.work_type, item.data, wsq⟩,
                ⟨WATCHER_BROADCAST_CHANNEL, item.role, item.work_type, item.data, wa⟩] }

/-- Embedding of `hard_restart(reason)` (lines 769-785): record a
"restarting" fabric event, set `stopped`, unsubscribe (not modelled), and
publish one FABRIC_RESTART message on the manager control channel whose
reason is prefixed with "restarting: ". -/
def hard_restart (s : SubscriberState) (reason : String) : SubscriberState :=
  let s1 := add_fabric_event s "restarting" reason
  let s2 := { s1 with stopped := true }
  { s2 with manager_publishes := s2.manager_publishes ++
      [⟨MANAGER_CTRL_CHANNEL, "FABRIC_RESTART", s2.fabric, "restarting: " ++ reason⟩] }

/-- Embedding of `send_flush(collection)` (lines 848-853): broadcast one
FLUSH_CACHE work item to the worker role carrying the collection classname
(`name` is always None on the soft-restart path). -/
def send_flush (s : SubscriberState) (classname : String) : SubscriberState :=
  broadcast s ⟨"0", some "worker", [("cache", some classname), ("name", none)], WorkType.FLUSH_CACHE⟩

/-- Outcomes of the controller-query phases run by `soft_restart`; the
queries themselves are external, so each phase's success flag (and the
error strings the MO rebuilds return on failure) are parameters. -/
structure SoftRestartEnv where
  build_node_db_ok : Bool
  vpcRsVpcConf_ok : Bool
  pcAggrIf_ok : Bool
  pcRsMbrIfs_ok : Bool
  build_tunnel_db_ok : Bool
  vpcRsVpcConf_err : String
  pcAggrIf_err : String
  pcRsMbrIfs_err : String
deriving Repr, DecidableEq, Inhabited

/-- Write effect of `build_node_db` (lines 1099-1226): on success the only
collection written is eptNode (flush + bulk insert via
`initialize_ept_collection`, then `eptNode.bulk_save`); the controller-query
outcome is abstracted by `ok`. -/
def build_node_db (ok : Bool) (s : SubscriberState) : Bool × SubscriberState :=
  if ok then (true, { s with db_writes := s.db_writes ++ ["eptNode"] }) else (false, s)

/-- Write effect of `build_tunnel_db` (lines 1228-1270): on success the only
collection written is eptTunnel. -/
def build_tunnel_db (ok : Bool) (s : SubscriberState) : Bool × SubscriberState :=
  if ok then (true, { s with db_writes := s.db_writes ++ ["eptTunnel"] }) else (false, s)

/-- Modelled from the spec: `MoClass.rebuild` (mo objects, not among the
given sources) "fully repopulates its local cache from a controller
class-query" (spec 4.4 build_mo), i.e. on success it writes exactly its own
MO collection. -/
def mo_rebuild (classname : String) (ok : Bool) (s : SubscriberState) : Bool × SubscriberState :=
  if ok then (true, { s with db_writes := s.db_writes ++ [classname] }) else (false, s)

/-- Body of `soft_restart` after the staleness check (lines 803-846): set
`initializing`, re-install paused interests (subscription layer, not
modelled), rebuild the node db, the three pc/vpc MO caches and the tunnel
db — escalating to `hard_restart` when any phase fails — then broadcast a
FLUSH_CACHE for eptNode, eptVpc, eptPc and eptTunnel, record "running" and
clear `initializing`.  Note the body never updates `soft_restart_ts`. -/
def soft_restart_body (env : SoftRestartEnv) (s : SubscriberState) (reason : String) :
    SubscriberState :=
  let s := { s with initializing := true }
  let s := add_fabric_event s "soft-reset" reason
  let s := add_fabric_event s "re-initializing" "building node db"
  let r := build_node_db env.build_node_db_ok s
  if !r.1 then
    hard_restart (add_fabric_event r.2 "failed" "failed to build node db") "failed to build node db"
  else
    let r1 := mo_rebuild "vpcRsVpcConf" env.vpcRsVpcConf_ok r.2
    if !r1.1 then
      hard_restart (add_fabric_event r1.2 "failed" env.vpcRsVpcConf_err)
        "failed to build node pc to vpc db"
    else
      let r2 := mo_rebuild "pcAggrIf" env.pcAggrIf_ok r1.2
      if !r2.1 then
        hard_restart (add_fabric_event r2.2 "failed" env.pcAggrIf_err)
          "failed to build node pc to vpc db"
      else
        let r3 := mo_rebuild "pcRsMbrIfs" env.pcRsMbrIfs_ok r2.2
        if !r3.1 then
          hard_restart (add_fabric_event r3.2 "failed" env.pcRsMbrIfs_err)
            "failed to build node pc to vpc db"
        else
          let s := add_fabric_event r3.2 "re-initializing" "building tunnel db"
          let r4 := build_tunnel_db env.build_tunnel_db_ok s
          if !r4.1 then
            hard_restart (add_fabric_event r4.2 "failed" "failed to build tunnel db")
              "failed to build tunnel db"
          else
            let s := send_flush r4.2 "eptNode"
            let s := send_flush s "eptVpc"
            let s := send_flush s "eptPc"
            let s := send_flush s "eptTunnel"
            let s := add_fabric_event s "running" ""
            { s with initializing := false }

/-- Embedding of `soft_restart(ts, reason)` (lines 787-846): a request whose
timestamp is older than `soft_restart_ts` is skipped (lines 799-801);
otherwise the body runs. -/
def soft_restart (env : SoftRestartEnv) (s : SubscriberState) (ts : Option Nat)
    (reason : String) : SubscriberState :=
  match ts with
  | some t => if t < s.soft_restart_ts then s else soft_restart_body env s reason
  | none => soft_restart_body env s reason

/-- Embedding of `handle_fabric_prot_pol(classname, attr)` (lines 1463-1471):
a changed `pairT` triggers `hard_restart` with a message naming the old and
new values.  The debug call on line 1465 reads `attr["pairT"]` before the
membership check, so a missing `pairT` raises KeyError; the exception is
caught and logged by `handle_event` (line 897), so the net effect of that
path is no state change, which is how the `none` branch models it. -/
def handle_fabric_prot_pol (s : SubscriberState) (attr : MoAttr) : SubscriberState :=
  match attr.fields.lookup "pairT" with
  | none => s
  | some pairT =>
    if pairT ≠ s.settings_vpc_pair_type then
      hard_restart s
        ("fabricProtPol changed from " ++ s.settings_vpc_pair_type ++ " to " ++ pairT)
    else s

/-- Embedding of `handle_fabric_group_ep(classname, attr)` (lines 1473-1476):
an unconditional soft-restart request stamped with the event's `_ts`. -/
def handle_fabric_group_ep (env : SoftRestartEnv) (s : SubscriberState)
    (classname : String) (attr : MoAttr) : SubscriberState :=
  soft_restart env s (some attr.ts) ("(" ++ classname ++ ") vpc domain update")

/-- Marking one worker's ack in the tracking dict (lines 474-477): a known
worker id is set to true; an unknown id is logged and the dict unchanged. -/
def markAck (t : List (String × Bool)) (addr : String) : List (String × Bool) :=
  if (t.lookup addr).isSome then t.map (fun p => if p.1 = addr then (p.1, true) else p) else t

/-- Worker ids with a pending (false) ack flag. -/
def pendingOf (t : List (String × Bool)) : List String :=
  (t.filter (fun p => !p.2)).map Prod.fst

/-- Embedding of `get_workers_with_pending_ack` (lines 758-767). -/
def get_workers_with_pending_ack (s : SubscriberState) : List String :=
  match s.epm_eof_tracking with
  | none => []
  | some t => pendingOf t

/-- Embedding of the FABRIC_EPM_EOF_ACK branch of `handle_subscriber_ctrl`
(lines 470-488): when tracking is active, mark the acking worker, and when
no worker is left pending broadcast one FABRIC_WATCH_RESUME to watchers,
clear the tracking dict and record a "running" fabric event; an ack while
tracking is disabled is logged and ignored. -/
def handle_fabric_epm_eof_ack (s : SubscriberState) (addr : String) : SubscriberState :=
  match s.epm_eof_tracking with
  | none => s
  | some t =>
    let t' := markAck t addr
    let s1 := { s with epm_eof_tracking := some t' }
    if (get_workers_with_pending_ack s1).length = 0 then
      let s2 := broadcast s1 ⟨"0", some "watcher", [], WorkType.FABRIC_WATCH_RESUME⟩
      let s3 := { s2 with epm_eof_tracking := none }
      add_fabric_event s3 "running" ""
    else s1

/-- Embedding of the EPM-EOF timeout check of the steady-state loop in `_run`
(lines 730-744): while tracking is active, once `epm_eof_start +
MAX_EPM_BUILD_TIME <= now` record a warning fabric event naming the pending
worker ids, broadcast one FABRIC_WATCH_RESUME to watchers, clear the
tracking dict and record a "running" fabric event. -/
def run_loop_epm_eof_check (maxBuildTime : Nat) (s : SubscriberState) (now : Nat) :
    SubscriberState :=
  match s.epm_eof_tracking with
  | none => s
  | some _ =>
    if s.epm_eof_start + maxBuildTime ≤ now then
      let pending := get_workers_with_pending_ack s
      let err := "epm max build time(" ++ toString maxBuildTime ++
        ") exceeded while waiting for worker[" ++ String.intercalate "," pending ++ "]"
      let s1 := add_fabric_event s "warning" err
      let s2 := broadcast s1 ⟨"0", some "watcher", [], WorkType.FABRIC_WATCH_RESUME⟩
      let s3 := { s2 with epm_eof_tracking := none }
      add_fabric_event s3 "running" ""
    else s

/-- Embedding of `parse_event(event)` (lines 855-874): iterate the event's
(classname, attributes) pairs, skipping entries without attributes; the
`_ts` stamp is part of `MoAttr`. -/
def parse_event (ev : List EventEntry) : List (String × MoAttr) :=
  ev.filterMap (fun e => e.attr.map (fun a => (e.classname, a)))

/-- Embedding of `handle_event(event)` (lines 876-898): drop everything when
`stopped` or `initializing`; otherwise dispatch the first parsed entry that
has a registered control handler (the loop returns on the first handled
classname).  The handler table is a parameter, so the drop property holds
for the actual table as well as any other. -/
def handle_event (handlers : String → Option (SubscriberState → MoAttr → SubscriberState))
    (s : SubscriberState) (ev : List EventEntry) : SubscriberState :=
  if s.stopped then s
  else if s.initializing then s
  else
    match (parse_event ev).find? (fun p => (handlers p.1).isSome) with
    | none => s
    | some (c, attr) =>
      match handlers c with
      | some h => h s attr
      | none => s

/-- The STD_MO work message built by `handle_std_mo_event` (line 927):
`eptMsgWorkStdMo("", "watcher", {classname: attr}, WORK_TYPE.STD_MO)` — the
address is statically the empty string and the payload data is elided. -/
def stdMoWorkMsg : EptMsgWork :=
  { addr := "", role := "watcher", qnum := 0, vnid := 0, seq := 0, fabric := "",
    work_type := WorkType.STD_MO, force := false }

/-- Embedding of `handle_std_mo_event(event)` (lines 900-930): drop when
`stopped` or `initializing`; otherwise, for every parsed entry whose
classname is a known MO class and whose attributes carry both `dn` and
`status`, enqueue a STD_MO work message on `std_mo_event_queue`. -/
def handle_std_mo_event (mo_classes : List String) (s : SubscriberState)
    (ev : List EventEntry) : SubscriberState :=
  if s.stopped then s
  else if s.initializing then s
  else
    (parse_event ev).foldl (fun st p =>
      if p.1 ∈ mo_classes ∧ (p.2.fields.lookup "dn").isSome ∧
          (p.2.fields.lookup "status").isSome then
        { st with std_mo_event_queue := st.std_mo_event_queue ++ [stdMoWorkMsg] }
      else st) s

/-- Embedding of `handle_epm_event(event, qnum)` (lines 932-961): drop when
`stopped` or `epm_initializing` (note: NOT `initializing`); otherwise parse
every entry with `epm_parser.parse` and enqueue the result — even a None
result is enqueued (line 958-959).  The parser (ept_msg.py) is a
parameter. -/
def handle_epm_event (parser : String → MoAttr → Nat → Option EpmParsed)
    (s : SubscriberState) (ev : List EventEntry) : SubscriberState :=
  if s.stopped then s
  else if s.epm_initializing then s
  else
    (parse_event ev).foldl (fun st p =>
      { st with epm_event_queue := st.epm_event_queue ++ [parser p.1 p.2 p.2.ts] }) s

/-- Projection of one endpoint-history document as streamed by
`get_epm_delete_msgs` (lines 1684-1699): the DB query already filters on the
fabric and on `events.0.status != deleted` (and optionally on addr/vnid), so
the input list models the query result. -/
structure HistEntry where
  node : Nat
  vnid : Nat
  addr : String
  type : String
deriving Repr, DecidableEq, Inhabited

/-- The 3-level present-set `endpoints[node][vnid][addr]` built by
`build_endpoint_db`/`refresh_endpoint`. -/
abbrev PresentSet := List (Nat × List (Nat × List String))

/-- Membership test of the 3-level dict (lines 1701-1702). -/
def presentMem (eps : PresentSet) (n v : Nat) (a : String) : Bool :=
  match eps.lookup n with
  | none => false
  | some l =>
    match l.lookup v with
    | none => false
    | some addrs => addrs.contains a

/-- A synthetic delete message as produced by
eptEpmEventParser.get_delete_event. -/
structure DeleteMsg where
  classname : String
  node : Nat
  vnid : Nat
  addr : String
  ts : Nat
deriving Repr, DecidableEq, Inhabited

/-- Modelled from the spec: `eptEpmEventParser.get_delete_event` (ept_msg.py,
not among the given sources).  Spec 4.4 step 7: for each absent entry the
subscriber emits synthetic DELETE envelopes for the named EPM class; the
parser is modelled as always producing the message. -/
def get_delete_event (classname : String) (node vnid : Nat) (addr : String) (ts : Nat) :
    Option DeleteMsg :=
  some ⟨classname, node, vnid, addr, ts⟩

/-- Embedding of `get_epm_delete_msgs(endpoints, ...)` (lines 1675-1718):
for each history entry still marked present in the fabric skip it;
otherwise yield one epmMacEp delete for a mac entry, and an
epmRsMacEpToIpEpAtt delete followed by an epmIpEp delete for any other
(ip) entry. -/
def get_epm_delete_msgs (eps : PresentSet) (hist : List HistEntry) (ts : Nat) :
    List DeleteMsg :=
  hist.flatMap (fun obj =>
    if presentMem eps obj.node obj.vnid obj.addr then []
    else if obj.type = "mac" then
      (get_delete_event "epmMacEp" obj.node obj.vnid obj.addr ts).toList
    else
      (get_delete_event "epmRsMacEpToIpEpAtt" obj.node obj.vnid obj.addr ts).toList ++
      (get_delete_event "epmIpEp" obj.node obj.vnid obj.addr ts).toList)

/-- Greedy chunking with an explicit current chunk: `chunkFrom maxLen c l`
is the list of bulks obtained by continuing to fill `c` from `l`, starting a
fresh bulk whenever the current one holds `maxLen` messages.  This is the
recursion-theoretic form of folding `bulkAppend` and is used to reason about
the grouping loop of `send_msg`. -/
def chunkFrom (maxLen : Nat) : List EptMsgWork → List EptMsgWork → List (List EptMsgWork)
  | c, [] => [c]
  | c, m :: ms =>
    if maxLen ≤ c.length then c :: chunkFrom maxLen [m] ms
    else chunkFrom maxLen (c ++ [m]) ms

/-- The sequence-stamped copy of a message list: message i of the list gets
`seq = base + i + 1`, the destination fabric and the effective queue number,
exactly as the grouping loop of `send_msg` stamps them. -/
def stampList (fabric : String) (q : Nat) : Nat → List EptMsgWork → List EptMsgWork
  | _, [] => []
  | base, m :: ms =>
    { m with fabric := fabric, qnum := q, seq := base + 1 } :: stampList fabric q (base + 1) ms

/-- Iterated single increments of one queue's tx statistics. -/
def incN (queue : String) : SubStats → Nat → SubStats
  | s, 0 => s
  | s, n + 1 => incN queue (increment_stats s queue 1) n

/-- The inner message list carried by a push payload. -/
def payloadInner : Payload → List EptMsgWork
  | .single m => [m]
  | .bulk _ ms => ms

/-- Example fixtures used by concrete evaluations and witnesses. -/
def wEx : TrackedWorker := ⟨"w1", "worker", ["w1-q0"]⟩

/-- Example worker table with a single worker of role "worker". -/
def awEx : List (String × List TrackedWorker) := [("worker", [wEx])]

/-- Example work message routed to `wEx`. -/
def msgEx : EptMsgWork := ⟨"a", "worker", 0, 1, 0, "", WorkType.RAW, false⟩

/-- Example initial sequencing/stats state: all counters zero, the worker's
queue and the "total" bucket known to the stats table. -/
def stEx : SendState := ⟨fun _ _ => 0, ⟨["w1-q0", "total"], fun _ => 0⟩⟩

/-- Example subscriber state reachable during a soft restart: `initializing`
is set while `epm_initializing` stays clear (`soft_restart` line 805 sets
only the former; `epm_initializing` was cleared at line 695). -/
def sInitEx : SubscriberState :=
  ⟨"fab1", "explicit", false, true, false, 0, none, 0, [], [], [], [], [], [], 0, 0⟩

/-- Example event with one well-formed entry. -/
def evEx : List EventEntry :=
  [⟨"epmIpEp", some ⟨[("dn", "x"), ("status", "created")], 7⟩⟩]

/-- Fixture: a soft-restart environment in which every rebuild phase
succeeds. -/
def envOkEx : SoftRestartEnv := ⟨true, true, true, true, true, "", "", ""⟩

/-- Fixture: a running subscriber state before any restart. -/
def s0Ex : SubscriberState :=
  ⟨"fab1", "explicit", false, false, false, 0, none, 0, [], [], [], [], [], [], 0, 0⟩

/-- Fixture for scenario S6: the live query returned only the mac endpoint
on node 101, vnid 1. -/
def epsEx : PresentSet := [(101, [(1, ["m1"])])]

/-- Fixture for scenario S6: history holds the mac endpoint and an ip
endpoint, both not deleted. -/
def histEx : List HistEntry := [⟨101, 1, "m1", "mac"⟩, ⟨101, 1, "10.1.1.2", "ip"⟩]

/-- Fixture for the EOF barrier: one worker "w1" still pending, EOF sent at
time 10. -/
def sEofEx : SubscriberState :=
  ⟨"fab1", "explicit", false, false, false, 0, some [("w1", false)], 10,
    [], [], [], [], [], [], 0, 0⟩

/-- Fixture for the bulking witness: three copies of `msgEx`, routed to the
same (worker, queue) pair. -/
def msgsEx : List EptMsgWork := [msgEx, msgEx, msgEx]

/-! Helper lemmas about the send path. -/

/-- Stripping the success flag from an attached push list recovers the raw
push sequence, independently of the outcome oracle. -/
theorem attachOk_map_strip (o : Nat → Bool) (pre : Bool) :
    ∀ (l : List (String × Payload)) (i : Nat),
      (attachOk o pre i l).map (fun p => (p.queue, p.payload, p.prepend)) =
        l.map (fun x => (x.1, x.2, pre)) := by
  intro l
  induction l with
  | nil => intro i; simp [attachOk]
  | cons x rest ih => intro i; simp [attachOk, ih]

/-- Attaching outcomes preserves the number of pushes. -/
theorem attachOk_length (o : Nat → Bool) (pre : Bool) :
    ∀ (l : List (String × Payload)) (i : Nat), (attachOk o pre i l).length = l.length := by
  intro l
  induction l with
  | nil => intro i; simp [attachOk]
  | cons x rest ih => intro i; simp [attachOk, ih]

/-- Every attached push comes from a raw push, with some outcome index. -/
theorem mem_attachOk (o : Nat → Bool) (pre : Bool) :
    ∀ (l : List (String × Payload)) (i : Nat) (p : Push), p ∈ attachOk o pre i l →
      ∃ j x, x ∈ l ∧ p = ⟨x.1, x.2, pre, o j⟩ := by
  intro l
  induction l with
  | nil => intro i p hp; simp [attachOk] at hp
  | cons x rest ih =>
    intro i p hp
    simp only [attachOk, List.mem_cons] at hp
    rcases hp with h | h
    · exact ⟨i, x, List.mem_cons_self x rest, h⟩
    · obtain ⟨j, y, hy, hpy⟩ := ih (i + 1) p h
      exact ⟨j, y, List.mem_cons_of_mem x hy, hpy⟩

/-- Appending a message to a snoc-decomposed bulk list touches only the
last bulk. -/
theorem bulkAppend_append (maxLen : Nat) (m : EptMsgWork) :
    ∀ (cs : List (List EptMsgWork)) (c : List EptMsgWork),
      bulkAppend maxLen (cs ++ [c]) m =
        if maxLen ≤ c.length then cs ++ [c, [m]] else cs ++ [c ++ [m]] := by
  intro cs
  induction cs with
  | nil => intro c; simp [bulkAppend]
  | cons b bs ih =>
    intro c
    cases hbs : bs ++ [c] with
    | nil => simp at hbs
    | cons b2 rest2 =>
      simp only [List.cons_append, hbs, bulkAppend]
      rw [← hbs, ih]
      by_cases h : maxLen ≤ c.length <;> simp [h]

/-- Folding the per-message bulk insertion equals greedy chunking. -/
theorem foldl_bulkAppend_eq (maxLen : Nat) :
    ∀ (l : List EptMsgWork) (cs : List (List EptMsgWork)) (c : List EptMsgWork),
      l.foldl (bulkAppend maxLen) (cs ++ [c]) = cs ++ chunkFrom maxLen c l := by
  intro l
  induction l with
  | nil => intro cs c; simp [chunkFrom]
  | cons m ms ih =>
    intro cs c
    simp only [List.foldl_cons, bulkAppend_append]
    by_cases h : maxLen ≤ c.length
    · rw [if_pos h]
      have h2 : cs ++ [c, [m]] = (cs ++ [c]) ++ [[m]] := by simp
      rw [h2, ih]
      simp [chunkFrom, h]
    · rw [if_neg h]
      rw [ih]
      simp [chunkFrom, h]

/-- The chunks concatenate back to the current chunk followed by the input. -/
theorem chunkFrom_flatten (maxLen : Nat) :
    ∀ (l c : List EptMsgWork), (chunkFrom maxLen c l).flatten = c ++ l := by
  intro l
  induction l with
  | nil => intro c; simp [chunkFrom]
  | cons m ms ih =>
    intro c
    by_cases h : maxLen ≤ c.length
    · simp [chunkFrom, h, ih]
    · simp [chunkFrom, h, ih]

/-- Starting from a non-empty current chunk, every chunk is non-empty. -/
theorem chunkFrom_ne_nil (maxLen : Nat) :
    ∀ (l c : List EptMsgWork), c ≠ [] → ∀ ch ∈ chunkFrom maxLen c l, ch ≠ [] := by
  intro l
  induction l with
  | nil =>
    intro c hc ch hch
    simp only [chunkFrom, List.mem_singleton] at hch
    subst hch; exact hc
  | cons m ms ih =>
    intro c hc ch hch
    by_cases h : maxLen ≤ c.length
    · simp only [chunkFrom, if_pos h] at hch
      rcases List.mem_cons.mp hch with rfl | hch
      · exact hc
      · exact ih [m] (by simp) ch hch
    · simp only [chunkFrom, if_neg h] at hch
      exact ih (c ++ [m]) (by simp) ch hch

/-- Number of chunks produced by greedy chunking. -/
theorem chunkFrom_length (maxLen : Nat) (hm : 0 < maxLen) :
    ∀ (l c : List EptMsgWork), c.length ≤ maxLen → 1 ≤ c.length + l.length →
      (chunkFrom maxLen c l).length = (c.length + l.length + maxLen - 1) / maxLen := by
  intro l
  induction l with
  | nil =>
    intro c hc h1
    simp only [List.length_nil, Nat.add_zero] at h1
    have h2 : (chunkFrom maxLen c []).length = 1 := rfl
    have h3 : c.length + ([] : List EptMsgWork).length + maxLen - 1
        = c.length + maxLen - 1 := by simp
    rw [h2, h3]
    symm
    have h4 : (c.length + maxLen - 1) / maxLen = 1 :=
      Nat.div_eq_of_lt_le (by omega) (by omega)
    exact h4
  | cons m ms ih =>
    intro c hc h1
    by_cases h : maxLen ≤ c.length
    · have hceq : c.length = maxLen := le_antisymm hc h
      simp only [chunkFrom, if_pos h, List.length_cons]
      rw [ih [m] (by simpa using hm)
        (by simp only [List.length_cons, List.length_nil]; omega)]
      rw [hceq]
      have e1 : ([m] : List EptMsgWork).length + ms.length + maxLen - 1
          = ms.length + maxLen := by
        simp only [List.length_cons, List.length_nil]
        omega
      have e2 : maxLen + (ms.length + 1) + maxLen - 1
          = (ms.length + maxLen) + maxLen := by omega
      rw [e1, e2, Nat.add_div_right _ hm, Nat.add_div_right _ hm, Nat.add_div_right _ hm]
    · simp only [chunkFrom, if_neg h, List.length_cons]
      rw [ih (c ++ [m])
        (by simp only [List.length_append, List.length_cons, List.length_nil]; omega)
        (by simp only [List.length_append, List.length_cons, List.length_nil]; omega)]
      congr 1
      simp only [List.length_append, List.length_cons, List.length_nil]
      omega

/-- Length of the stamped copy of a message list. -/
theorem stampList_length (fabric : String) (q : Nat) :
    ∀ (l : List EptMsgWork) (base : Nat), (stampList fabric q base l).length = l.length := by
  intro l
  induction l with
  | nil => intro base; simp [stampList]
  | cons m ms ih => intro base; simp [stampList, ih]

/-- The stamped sequence numbers are the consecutive naturals starting right
after the base. -/
theorem stampList_map_seq (fabric : String) (q : Nat) :
    ∀ (l : List EptMsgWork) (base : Nat),
      (stampList fabric q base l).map (fun m => m.seq) =
        List.range' (base + 1) l.length := by
  intro l
  induction l with
  | nil => intro base; simp [stampList]
  | cons m ms ih =>
    intro base
    simp only [stampList, List.map_cons, List.length_cons, List.range'_succ, ih]

/-- The inner messages of a converted bulk are the bulk itself, whether it
was unwrapped to a single message or kept as a bulk envelope. -/
theorem payloadInner_bulkPayload (b : List EptMsgWork) :
    payloadInner (bulkPayload b) = b := by
  match b with
  | [] => rfl
  | [m] => rfl
  | x :: y :: rest => rfl

/-- The inner messages of the attached pushes, in order. -/
theorem attachOk_flatMap_inner (o : Nat → Bool) (pre : Bool) :
    ∀ (l : List (String × Payload)) (i : Nat),
      (attachOk o pre i l).flatMap (fun p => payloadInner p.payload) =
        l.flatMap (fun x => payloadInner x.2) := by
  intro l
  induction l with
  | nil => intro i; simp [attachOk]
  | cons x rest ih => intro i; simp [attachOk, ih]

/-- Grouping loop of `send_msg` on a batch whose every message routes to the
one (worker, queue) pair (w, q): the grouping dict stays a single group
whose bulks are the greedy chunking of the stamped batch, the (w, q)
sequence counter advances by the batch length (all other counters are
untouched) and the destination queue's tx counter is incremented once per
message. -/
theorem sendLoop_single_group (fabric : String) (maxLen : Nat)
    (aw : List (String × List TrackedWorker)) (w : TrackedWorker) (q : Nat) :
    ∀ (msgs : List EptMsgWork) (B0 : List (List EptMsgWork)) (st : SendState),
      (∀ m ∈ msgs, routeMsg aw { m with fabric := fabric } = some (w, q)) →
      (msgs.foldl (sendStep fabric maxLen aw) ([(w, [(q, B0)])], st)).1 =
          [(w, [(q, (stampList fabric q (st.seqs w.worker_id q) msgs).foldl
            (bulkAppend maxLen) B0)])]
      ∧ (∀ wid qn, (msgs.foldl (sendStep fabric maxLen aw) ([(w, [(q, B0)])], st)).2.seqs wid qn
          = if wid = w.worker_id ∧ qn = q then st.seqs w.worker_id q + msgs.length
            else st.seqs wid qn)
      ∧ (msgs.foldl (sendStep fabric maxLen aw) ([(w, [(q, B0)])], st)).2.stats
          = incN (w.queues.getD q "") st.stats msgs.length := by
  intro msgs
  induction msgs with
  | nil =>
    intro B0 st hroute
    refine ⟨by simp [stampList], ?_, by simp [incN]⟩
    intro wid qn
    simp only [List.foldl_nil, List.length_nil, Nat.add_zero]
    split
    · rename_i hcond
      obtain ⟨h1, h2⟩ := hcond
      rw [h1, h2]
    · rfl
  | cons m ms ih =>
    intro B0 st hroute
    have hm0 : routeMsg aw { m with fabric := fabric } = some (w, q) :=
      hroute m (List.mem_cons_self m ms)
    have hstep : sendStep fabric maxLen aw ([(w, [(q, B0)])], st) m =
        ([(w, [(q, bulkAppend maxLen B0
            { m with fabric := fabric, qnum := q, seq := st.seqs w.worker_id q + 1 })])],
         ⟨fun wid qn => if wid = w.worker_id ∧ qn = q then st.seqs w.worker_id q + 1
            else st.seqs wid qn,
          increment_stats st.stats (w.queues.getD q "") 1⟩) := by
      simp [sendStep, hm0, workAdd, groupAdd]
    simp only [List.foldl_cons, hstep]
    obtain ⟨ha, hb, hc⟩ := ih
      (bulkAppend maxLen B0
        { m with fabric := fabric, qnum := q, seq := st.seqs w.worker_id q + 1 })
      ⟨fun wid qn => if wid = w.worker_id ∧ qn = q then st.seqs w.worker_id q + 1
          else st.seqs wid qn,
        increment_stats st.stats (w.queues.getD q "") 1⟩
      (fun m' hm' => hroute m' (List.mem_cons_of_mem m hm'))
    refine ⟨?_, ?_, ?_⟩
    · rw [ha]
      simp [stampList]
    · intro wid qn
      rw [hb wid qn]
      by_cases hcond : wid = w.worker_id ∧ qn = q
      · obtain ⟨hw, hq⟩ := hcond
        subst hw; subst hq
        simp
        omega
      · simp [hcond]
    · rw [hc]
      simp [incN]

/-- C1: for a batch of N ≥ 1 messages that all route to the same (worker,
queue) pair, `send_msg` attempts exactly max(1, ⌈N / MAX_SEND_MSG_LENGTH⌉)
pushes, all to that worker's queue; a batch of exactly one message is pushed
as a plain (non-bulk) envelope; every bulk envelope's outer seq equals the
seq of its last inner message; and the seq values stamped across the batch,
read off the pushed payloads in order, are the consecutive naturals
base+1, …, base+N (hence strictly increasing). -/
theorem send_msg_bulk_emission (fabric : String) (maxLen : Nat)
    (aw : List (String × List TrackedWorker)) (w : TrackedWorker) (q : Nat)
    (msgs : List EptMsgWork) (prepend : Bool) (pushOk : Nat → Bool) (st : SendState)
    (hm : 0 < maxLen) (hne : msgs ≠ [])
    (hroute : ∀ m ∈ msgs, routeMsg aw { m with fabric := fabric } = some (w, q)) :
    (send_msg fabric maxLen aw msgs prepend pushOk st).2.length =
        max 1 ((msgs.length + maxLen - 1) / maxLen)
    ∧ (∀ p ∈ (send_msg fabric maxLen aw msgs prepend pushOk st).2,
        p.queue = w.queues.getD q "")
    ∧ (msgs.length = 1 → ∃ m1,
        (send_msg fabric maxLen aw msgs prepend pushOk st).2.map Push.payload
          = [Payload.single m1])
    ∧ (∀ p ∈ (send_msg fabric maxLen aw msgs prepend pushOk st).2, ∀ sq ms,
        p.payload = Payload.bulk sq ms →
          ∃ last, ms.getLast? = some last ∧ sq = last.seq)
    ∧ (((send_msg fabric maxLen aw msgs prepend pushOk st).2.flatMap
          (fun p => payloadInner p.payload)).map (fun m => m.seq)
        = List.range' (st.seqs w.worker_id q + 1) msgs.length) := by
  obtain ⟨m0, ms0, rfl⟩ := List.exists_cons_of_ne_nil hne
  have hm0 : routeMsg aw { m0 with fabric := fabric } = some (w, q) :=
    hroute m0 (List.mem_cons_self m0 ms0)
  have hstep : sendStep fabric maxLen aw ([], st) m0 =
      ([(w, [(q, [[{ m0 with fabric := fabric, qnum := q, seq := st.seqs w.worker_id q + 1 }]])])],
       ⟨fun wid qn => if wid = w.worker_id ∧ qn = q then st.seqs w.worker_id q + 1
          else st.seqs wid qn,
        increment_stats st.stats (w.queues.getD q "") 1⟩) := by
    have hb : bulkAppend maxLen [[]]
        { m0 with fabric := fabric, qnum := q, seq := st.seqs w.worker_id q + 1 }
        = [[{ m0 with fabric := fabric, qnum := q, seq := st.seqs w.worker_id q + 1 }]] := by
      simp [bulkAppend, Nat.le_zero, hm.ne']
    simp [sendStep, hm0, workAdd, hb]
  obtain ⟨ha, hb2, hc2⟩ := sendLoop_single_group fabric maxLen aw w q ms0
      [[{ m0 with fabric := fabric, qnum := q, seq := st.seqs w.worker_id q + 1 }]]
      ⟨fun wid qn => if wid = w.worker_id ∧ qn = q then st.seqs w.worker_id q + 1
          else st.seqs wid qn,
        increment_stats st.stats (w.queues.getD q "") 1⟩
      (fun m' hm' => hroute m' (List.mem_cons_of_mem m0 hm'))
  have hwork : ((m0 :: ms0).foldl (sendStep fabric maxLen aw) ([], st)).1
      = [(w, [(q, chunkFrom maxLen
          [{ m0 with fabric := fabric, qnum := q, seq := st.seqs w.worker_id q + 1 }]
          (stampList fabric q (st.seqs w.worker_id q + 1) ms0))])] := by
    rw [List.foldl_cons, hstep, ha]
    have h1 : (⟨fun wid qn => if wid = w.worker_id ∧ qn = q then st.seqs w.worker_id q + 1
        else st.seqs wid qn,
        increment_stats st.stats (w.queues.getD q "") 1⟩ : SendState).seqs w.worker_id q
        = st.seqs w.worker_id q + 1 := by simp
    rw [h1]
    have h2 := foldl_bulkAppend_eq maxLen
      (stampList fabric q (st.seqs w.worker_id q + 1) ms0) []
      [{ m0 with fabric := fabric, qnum := q, seq := st.seqs w.worker_id q + 1 }]
    simp only [List.nil_append] at h2
    rw [h2]
  have hpush : (send_msg fabric maxLen aw (m0 :: ms0) prepend pushOk st).2
      = attachOk pushOk prepend 0
          ((chunkFrom maxLen
              [{ m0 with fabric := fabric, qnum := q, seq := st.seqs w.worker_id q + 1 }]
              (stampList fabric q (st.seqs w.worker_id q + 1) ms0)).map
            (fun b => (w.queues.getD q "", bulkPayload b))) := by
    simp only [send_msg]
    rw [hwork]
    simp [pushSeq]
  have hchne : ∀ ch ∈ chunkFrom maxLen
      [{ m0 with fabric := fabric, qnum := q, seq := st.seqs w.worker_id q + 1 }]
      (stampList fabric q (st.seqs w.worker_id q + 1) ms0), ch ≠ [] :=
    chunkFrom_ne_nil maxLen _ _ (by simp)
  have hlenB : (chunkFrom maxLen
      [{ m0 with fabric := fabric, qnum := q, seq := st.seqs w.worker_id q + 1 }]
      (stampList fabric q (st.seqs w.worker_id q + 1) ms0)).length
      = ((m0 :: ms0).length + maxLen - 1) / maxLen := by
    rw [chunkFrom_length maxLen hm _ _
      (by simpa using hm)
      (by simp only [List.length_cons, List.length_nil]; omega)]
    congr 1
    simp only [List.length_cons, List.length_nil, stampList_length]
    omega
  refine ⟨?_, ?_, ?_, ?_, ?_⟩
  · rw [hpush, attachOk_length, List.length_map, hlenB]
    have hge1 : 1 ≤ ((m0 :: ms0).length + maxLen - 1) / maxLen := by
      rw [Nat.le_div_iff_mul_le hm]
      simp only [List.length_cons]
      omega
    rw [Nat.max_eq_right hge1]
  · intro p hp
    rw [hpush] at hp
    obtain ⟨j, x, hx, rfl⟩ := mem_attachOk pushOk prepend _ 0 p hp
    obtain ⟨b, hbB, rfl⟩ := List.mem_map.mp hx
    rfl
  · intro hlen1
    have hms0 : ms0 = [] := by
      simp only [List.length_cons] at hlen1
      exact List.length_eq_zero.mp (by omega)
    subst hms0
    refine ⟨{ m0 with fabric := fabric, qnum := q, seq := st.seqs w.worker_id q + 1 }, ?_⟩
    rw [hpush]
    simp [stampList, chunkFrom, attachOk, bulkPayload]
  · intro p hp sq ms hpay
    rw [hpush] at hp
    obtain ⟨j, x, hx, rfl⟩ := mem_attachOk pushOk prepend _ 0 p hp
    obtain ⟨b, hbB, rfl⟩ := List.mem_map.mp hx
    have hbne : b ≠ [] := hchne b hbB
    match b, hbne with
    | [m1], _ =>
      simp [bulkPayload] at hpay
    | m1 :: m2 :: rest, _ =>
      simp only [bulkPayload] at hpay
      obtain ⟨h1, h2⟩ := Payload.bulk.inj hpay
      obtain ⟨last, hlast⟩ := Option.isSome_iff_exists.mp
        (List.getLast?_isSome.mpr (by simp : (m1 :: m2 :: rest : List EptMsgWork) ≠ []))
      refine ⟨last, ?_, ?_⟩
      · rw [← h2, hlast]
      · rw [← h1, hlast]
        rfl
  · rw [hpush, attachOk_flatMap_inner, List.flatMap_map]
    have hfl : ∀ (L : List (List EptMsgWork)), L.flatMap (fun b => b) = L.flatten := by
      intro L
      induction L with
      | nil => rfl
      | cons x xs ih => simp [ih]
    simp only [payloadInner_bulkPayload]
    rw [hfl, chunkFrom_flatten]
    have hS : ({ m0 with fabric := fabric, qnum := q, seq := st.seqs w.worker_id q + 1 }
        :: stampList fabric q (st.seqs w.worker_id q + 1) ms0)
        = stampList fabric q (st.seqs w.worker_id q) (m0 :: ms0) := rfl
    rw [List.singleton_append, hS, stampList_map_seq]

/-- C1 witness: three messages with identical (vnid, addr) and
MAX_SEND_MSG_LENGTH = 2 produce max(1, ⌈3/2⌉) = 2 pushes to the one queue,
and the stamped seq values read off the payloads are 1, 2, 3. -/
theorem send_msg_bulk_emission_witness :
    ((0 : Nat) < 2 ∧ msgsEx ≠ [] ∧
      ∀ m ∈ msgsEx, routeMsg awEx { m with fabric := "f" } = some (wEx, 0))
    ∧ (send_msg "f" 2 awEx msgsEx false (fun _ => true) stEx).2.length =
        max 1 ((msgsEx.length + 2 - 1) / 2)
    ∧ ((send_msg "f" 2 awEx msgsEx false (fun _ => true) stEx).2.flatMap
          (fun p => payloadInner p.payload)).map (fun m => m.seq)
        = List.range' (stEx.seqs wEx.worker_id 0 + 1) msgsEx.length := by
  have h := send_msg_bulk_emission "f" 2 awEx wEx 0 msgsEx false (fun _ => true) stEx
    (by decide) (by decide) (by decide)
  exact ⟨⟨by decide, by decide, by decide⟩, h.1, h.2.2.2.2⟩

/-- C2: in `send_msg`, a message whose role has no workers is dropped with
only a log — the sequencing state and statistics are untouched and nothing
is pushed; otherwise the chosen worker is `workers[get_msg_hash(msg) %
len(workers)]` — a pure function of the worker table and the message, so two
runs on identical inputs pick the same worker — and a `qnum` at or past the
worker's queue count is clamped to the last queue when the worker has at
least one queue. -/
theorem send_msg_hash_routing (fabric : String) (maxLen : Nat)
    (aw : List (String × List TrackedWorker)) (m : EptMsgWork) (prepend : Bool)
    (pushOk : Nat → Bool) (st : SendState) :
    ((aw.lookup m.role = none ∨ aw.lookup m.role = some []) →
      send_msg fabric maxLen aw [m] prepend pushOk st = (st, []))
    ∧ (∀ ws, aw.lookup m.role = some ws → ws ≠ [] →
        0 < (ws.getD (get_msg_hash m % ws.length) default).queues.length →
        routeMsg aw m = some (ws.getD (get_msg_hash m % ws.length) default,
          if (ws.getD (get_msg_hash m % ws.length) default).queues.length ≤ m.qnum then
            (ws.getD (get_msg_hash m % ws.length) default).queues.length - 1
          else m.qnum)) := by
  constructor
  · intro h
    have hroute : routeMsg aw { m with fabric := fabric } = none := by
      have hrole : ({ m with fabric := fabric } : EptMsgWork).role = m.role := rfl
      rcases h with h | h
      · simp [routeMsg, hrole, h]
      · simp [routeMsg, hrole, h]
    simp [send_msg, sendStep, hroute, pushSeq, attachOk]
  · intro ws hws hne hq
    have hlen : ¬ ws.length = 0 := by
      simpa [List.length_eq_zero] using hne
    simp [routeMsg, hws, hlen]
    split <;> simp_all

/-- C2 witness: with one worker of role "worker" exposing one queue and a
message with qnum 5, the message routes to that worker with qnum clamped
to 0. -/
theorem send_msg_hash_routing_witness :
    (awEx.lookup "worker" = some [wEx] ∧ [wEx] ≠ [] ∧
      0 < (([wEx].getD (get_msg_hash { msgEx with qnum := 5 } % 1) default)).queues.length)
    ∧ routeMsg awEx { msgEx with qnum := 5 } = some (wEx, 0) := by
  refine ⟨⟨by decide, by decide, by decide⟩, ?_⟩
  have h := (send_msg_hash_routing "f" 20 awEx { msgEx with qnum := 5 } false
    (fun _ => true) stEx).2 [wEx] (by decide) (by decide) (by decide)
  simpa using h

/-- C10: `send_msg_direct` drops a message whose qnum is at or past the
worker's queue count — no sequence number is consumed, no statistics are
updated and nothing is pushed — whereas `send_msg` (lines 361-370) clamps
such a qnum to the worker's last queue. -/
theorem send_msg_direct_out_of_range_drop (fabric : String) (worker : TrackedWorker)
    (pushOk : Nat → Bool) (st : SendState) (m : EptMsgWork)
    (h : worker.queues.length ≤ m.qnum) :
    send_msg_direct fabric worker pushOk [m] st 0 = (st, [])
    ∧ (∀ aw ws, aw.lookup m.role = some ws → ws ≠ [] →
        ws.getD (get_msg_hash m % ws.length) default = worker →
        0 < worker.queues.length →
        routeMsg aw m = some (worker, worker.queues.length - 1)) := by
  constructor
  · have hq : worker.queues.length ≤ ({ m with fabric := fabric } : EptMsgWork).qnum := h
    simp [send_msg_direct, hq]
  · intro aw ws hws hne hpick hq
    have hlen : ¬ ws.length = 0 := by
      simpa [List.length_eq_zero] using hne
    simp only [routeMsg, hws]
    simp only [List.getD_eq_getElem?_getD] at hpick
    simp [hlen, hpick, h, hq]

/-- C10 witness: a message with qnum 5 sent directly to the one-queue worker
`wEx` is dropped without touching the state, while `send_msg` routing clamps
the same message to queue 0. -/
theorem send_msg_direct_out_of_range_drop_witness :
    wEx.queues.length ≤ 5
    ∧ send_msg_direct "f" wEx (fun _ => true) [{ msgEx with qnum := 5 }] stEx 0 = (stEx, [])
    ∧ routeMsg awEx { msgEx with qnum := 5 } = some (wEx, 0) := by
  have h := send_msg_direct_out_of_range_drop "f" wEx (fun _ => true) stEx
    { msgEx with qnum := 5 } (by decide)
  exact ⟨by decide, h.1, by
    have := h.2 awEx [wEx] (by decide) (by decide) (by decide) (by decide)
    simpa using this⟩

/-- C9: in `send_msg` the sequence counters and tx statistics are advanced
while messages are grouped, before any push is attempted, and a failed push
is logged without rolling anything back: the final sequencing/stats state
and the pushed payloads are independent of the push outcomes, so the
sequence numbers of messages lost to a failed push stay consumed and
counted.  The closing conjuncts evaluate a concrete run in which the only
push fails: the queue's last_seq and tx counter still advance to 1. -/
theorem send_msg_no_rollback_on_push_failure (fabric : String) (maxLen : Nat)
    (aw : List (String × List TrackedWorker)) (msgs : List EptMsgWork)
    (prepend : Bool) (o1 o2 : Nat → Bool) (st : SendState) :
    (send_msg fabric maxLen aw msgs prepend o1 st).1 =
      (send_msg fabric maxLen aw msgs prepend o2 st).1
    ∧ (send_msg fabric maxLen aw msgs prepend o1 st).2.map
        (fun p => (p.queue, p.payload, p.prepend)) =
      (send_msg fabric maxLen aw msgs prepend o2 st).2.map
        (fun p => (p.queue, p.payload, p.prepend))
    ∧ (send_msg "f" 20 awEx [msgEx] false (fun _ => false) stEx).2.all
        (fun p => p.ok = false) = true
    ∧ (send_msg "f" 20 awEx [msgEx] false (fun _ => false) stEx).2.length = 1
    ∧ (send_msg "f" 20 awEx [msgEx] false (fun _ => false) stEx).1.seqs "w1" 0 = 1
    ∧ (send_msg "f" 20 awEx [msgEx] false (fun _ => false) stEx).1.stats.tx "w1-q0" = 1 := by
  refine ⟨rfl, ?_, by decide, by decide, by decide, by decide⟩
  simp [send_msg, attachOk_map_strip]

/-- C7: a fabricProtPol event whose pairT differs from the stored
vpc_pair_type marks the subscriber stopped and publishes exactly one
FABRIC_RESTART on the manager control channel whose reason names both the
old and the new value; with pairT absent or unchanged, nothing is published
and `stopped` is untouched. -/
theorem fabric_prot_pol_pairT_change (s : SubscriberState) (attr : MoAttr) :
    (∀ p, attr.fields.lookup "pairT" = some p → p ≠ s.settings_vpc_pair_type →
      (handle_fabric_prot_pol s attr).stopped = true
      ∧ (handle_fabric_prot_pol s attr).manager_publishes = s.manager_publishes ++
          [⟨MANAGER_CTRL_CHANNEL, "FABRIC_RESTART", s.fabric,
            "restarting: " ++ ("fabricProtPol changed from " ++ s.settings_vpc_pair_type
              ++ " to " ++ p)⟩]
      ∧ (∃ pre mid post : List Char,
          ("restarting: " ++ ("fabricProtPol changed from " ++ s.settings_vpc_pair_type
            ++ " to " ++ p)).data
          = pre ++ s.settings_vpc_pair_type.data ++ mid ++ p.data ++ post))
    ∧ ((attr.fields.lookup "pairT" = none ∨
        attr.fields.lookup "pairT" = some s.settings_vpc_pair_type) →
      (handle_fabric_prot_pol s attr).manager_publishes = s.manager_publishes
      ∧ (handle_fabric_prot_pol s attr).stopped = s.stopped) := by
  constructor
  · intro p hp hne
    refine ⟨?_, ?_, ?_⟩
    · simp [handle_fabric_prot_pol, hp, hne, hard_restart, add_fabric_event]
    · simp [handle_fabric_prot_pol, hp, hne, hard_restart, add_fabric_event]
    · refine ⟨("restarting: " ++ "fabricProtPol changed from ").data, " to ".data, [], ?_⟩
      simp [String.data_append]
  · intro h
    rcases h with h | h
    · simp [handle_fabric_prot_pol, h]
    · simp [handle_fabric_prot_pol, h]

/-- C7 witness: scenario S3 — stored pair type "reciprocal", event pairT
"explicit": the subscriber stops and one FABRIC_RESTART is published whose
reason carries both values. -/
theorem fabric_prot_pol_pairT_change_witness :
    (([("pairT", "explicit")] : List (String × String)).lookup "pairT" = some "explicit"
      ∧ "explicit" ≠ "reciprocal")
    ∧ (handle_fabric_prot_pol
        ⟨"fab1", "reciprocal", false, false, false, 0, none, 0, [], [], [], [], [], [], 0, 0⟩
        ⟨[("pairT", "explicit")], 3⟩).stopped = true := by
  refine ⟨⟨by decide, by decide⟩, ?_⟩
  exact ((fabric_prot_pol_pairT_change
    ⟨"fab1", "reciprocal", false, false, false, 0, none, 0, [], [], [], [], [], [], 0, 0⟩
    ⟨[("pairT", "explicit")], 3⟩).1 "explicit" (by decide) (by decide)).1

/-- C3 (amended): the drop policy actually implemented by the handlers —
when `stopped`, all three handlers drop everything; when `initializing`,
`handle_event` and `handle_std_mo_event` drop their events; and
`handle_epm_event` drops its events according to `epm_initializing` (its own
flag), not `initializing`. -/
theorem event_drop_policy
    (handlers : String → Option (SubscriberState → MoAttr → SubscriberState))
    (parser : String → MoAttr → Nat → Option EpmParsed) (mo_classes : List String)
    (s : SubscriberState) (ev : List EventEntry) :
    (s.stopped = true →
      handle_event handlers s ev = s
      ∧ handle_std_mo_event mo_classes s ev = s
      ∧ handle_epm_event parser s ev = s)
    ∧ (s.initializing = true →
      handle_event handlers s ev = s
      ∧ handle_std_mo_event mo_classes s ev = s)
    ∧ (s.epm_initializing = true →
      handle_epm_event parser s ev = s) := by
  refine ⟨?_, ?_, ?_⟩
  · intro h
    refine ⟨?_, ?_, ?_⟩ <;> simp [handle_event, handle_std_mo_event, handle_epm_event, h]
  · intro h
    by_cases hs : s.stopped = true
    · exact ⟨by simp [handle_event, hs], by simp [handle_std_mo_event, hs]⟩
    · replace hs : s.stopped = false := by simpa using hs
      exact ⟨by simp [handle_event, hs, h], by simp [handle_std_mo_event, hs, h]⟩
  · intro h
    by_cases hs : s.stopped = true
    · simp [handle_epm_event, hs]
    · replace hs : s.stopped = false := by simpa using hs
      simp [handle_epm_event, hs, h]

/-- C3 witness: in the soft-restart state (`initializing` set, `stopped`
clear) the slow-MO handlers drop their events unchanged. -/
theorem event_drop_policy_witness :
    sInitEx.initializing = true
    ∧ handle_event (fun _ => none) sInitEx evEx = sInitEx
    ∧ handle_std_mo_event ["fvBD"] sInitEx evEx = sInitEx := by
  refine ⟨by decide, ?_, ?_⟩
  · exact ((event_drop_policy (fun _ => none) (fun _ _ _ => none) ["fvBD"] sInitEx
      evEx).2.1 (by decide)).1
  · exact ((event_drop_policy (fun _ => none) (fun _ _ _ => none) ["fvBD"] sInitEx
      evEx).2.1 (by decide)).2

/-- C3 counterexample: with `initializing = true`, `stopped = false` but
`epm_initializing = false` (the state a soft restart produces after initial
bootstrap), an EPM event delivered to `handle_epm_event` IS enqueued for
dispatch — `handle_epm_event` tests only `epm_initializing` (line 940), so
the claim's "no incoming event results in any message being enqueued
whenever initializing is true" fails here. -/
theorem handle_epm_event_initializing_counterexample :
    sInitEx.initializing = true ∧ sInitEx.stopped = false
    ∧ sInitEx.epm_event_queue.length = 0
    ∧ (handle_epm_event (fun _ _ _ => none) sInitEx evEx).epm_event_queue.length = 1 := by
  decide

/-- The body of `soft_restart` never writes `soft_restart_ts`. -/
theorem soft_restart_body_ts (env : SoftRestartEnv) (s : SubscriberState) (reason : String) :
    (soft_restart_body env s reason).soft_restart_ts = s.soft_restart_ts := by
  obtain ⟨b1, b2, b3, b4, b5, e1, e2, e3⟩ := env
  cases b1 <;> cases b2 <;> cases b3 <;> cases b4 <;> cases b5 <;>
    simp [soft_restart_body, build_node_db, mo_rebuild, build_tunnel_db,
      hard_restart, add_fabric_event, send_flush, broadcast]

/-- C5: `soft_restart` never updates `soft_restart_ts` (it is only ever read
at line 799), so the staleness check compares every request against the
initial value 0 and an out-of-order request is NOT dropped: after a
`fabricAutoGEp` event with _ts = 100, a second event with _ts = 99 still
runs a full second soft-restart sequence, contradicting both the claim and
the code's own intent (the field's comment on line 90 and the
"skipping stale soft_restart request" log of line 800). -/
theorem soft_restart_stale_not_dropped :
    (∀ env s ts reason, (soft_restart env s ts reason).soft_restart_ts = s.soft_restart_ts)
    ∧ (handle_fabric_group_ep envOkEx s0Ex "fabricAutoGEp" ⟨[], 100⟩).soft_restart_ts = 0
    ∧ ((handle_fabric_group_ep envOkEx s0Ex "fabricAutoGEp" ⟨[], 100⟩).fabric_events.filter
        (fun e => e.1 == "soft-reset")).length = 1
    ∧ ((handle_fabric_group_ep envOkEx
          (handle_fabric_group_ep envOkEx s0Ex "fabricAutoGEp" ⟨[], 100⟩)
          "fabricAutoGEp" ⟨[], 99⟩).fabric_events.filter
        (fun e => e.1 == "soft-reset")).length = 2 := by
  refine ⟨?_, by decide, by decide, by decide⟩
  intro env s ts reason
  cases ts with
  | none => simpa using soft_restart_body_ts env s reason
  | some t =>
    by_cases h : t < s.soft_restart_ts
    · simp [soft_restart, h]
    · simpa [soft_restart, h] using soft_restart_body_ts env s reason

/-- C8: per-entry delete synthesis of `get_epm_delete_msgs`: the output is
the per-entry concatenation of a function that yields nothing for an entry
still present in the fabric, exactly one epmMacEp delete for an absent mac
entry and exactly the epmRsMacEpToIpEpAtt + epmIpEp pair for an absent
non-mac (ip) entry; consequently the total count is (absent macs) +
2·(absent ips). -/
theorem get_epm_delete_msgs_spec (eps : PresentSet) (hist : List HistEntry) (ts : Nat) :
    (∃ f, get_epm_delete_msgs eps hist ts = hist.flatMap f
      ∧ ∀ e ∈ hist,
        (presentMem eps e.node e.vnid e.addr = true → f e = [])
        ∧ (presentMem eps e.node e.vnid e.addr = false → e.type = "mac" →
            f e = [⟨"epmMacEp", e.node, e.vnid, e.addr, ts⟩])
        ∧ (presentMem eps e.node e.vnid e.addr = false → e.type ≠ "mac" →
            f e = [⟨"epmRsMacEpToIpEpAtt", e.node, e.vnid, e.addr, ts⟩,
                   ⟨"epmIpEp", e.node, e.vnid, e.addr, ts⟩]))
    ∧ (get_epm_delete_msgs eps hist ts).length =
        (hist.filter (fun e =>
          !presentMem eps e.node e.vnid e.addr && e.type == "mac")).length
        + 2 * (hist.filter (fun e =>
          !presentMem eps e.node e.vnid e.addr && !(e.type == "mac"))).length := by
  constructor
  · refine ⟨(fun obj => if presentMem eps obj.node obj.vnid obj.addr then []
      else if obj.type = "mac" then
        (get_delete_event "epmMacEp" obj.node obj.vnid obj.addr ts).toList
      else
        (get_delete_event "epmRsMacEpToIpEpAtt" obj.node obj.vnid obj.addr ts).toList ++
        (get_delete_event "epmIpEp" obj.node obj.vnid obj.addr ts).toList), rfl, ?_⟩
    intro e _
    refine ⟨fun h1 => by simp [h1], fun h1 h2 => by simp [h1, h2, get_delete_event],
      fun h1 h2 => by simp [h1, h2, get_delete_event]⟩
  · induction hist with
    | nil => simp [get_epm_delete_msgs]
    | cons e rest ih =>
      have hcons : get_epm_delete_msgs eps (e :: rest) ts =
          (if presentMem eps e.node e.vnid e.addr then []
           else if e.type = "mac" then [⟨"epmMacEp", e.node, e.vnid, e.addr, ts⟩]
           else [⟨"epmRsMacEpToIpEpAtt", e.node, e.vnid, e.addr, ts⟩,
                 ⟨"epmIpEp", e.node, e.vnid, e.addr, ts⟩])
          ++ get_epm_delete_msgs eps rest ts := by
        by_cases hp : presentMem eps e.node e.vnid e.addr = true <;>
          by_cases hm : e.type = "mac" <;>
            simp [get_epm_delete_msgs, get_delete_event, hp, hm]
      rw [hcons, List.length_append, ih, List.filter_cons, List.filter_cons]
      cases hp : presentMem eps e.node e.vnid e.addr with
      | true => simp [hp]
      | false =>
        by_cases hm : e.type = "mac"
        · simp [hp, hm]
          omega
        · have hm' : (e.type == "mac") = false := by simpa using hm
          simp [hp, hm, hm']
          omega

/-- C8 witness: scenario S6 — two delete envelopes are synthesized (both for
the missing ip endpoint), none for the mac endpoint that is still present. -/
theorem get_epm_delete_msgs_spec_witness :
    (get_epm_delete_msgs epsEx histEx 5).length = 2
    ∧ get_epm_delete_msgs epsEx histEx 5 =
        [⟨"epmRsMacEpToIpEpAtt", 101, 1, "10.1.1.2", 5⟩, ⟨"epmIpEp", 101, 1, "10.1.1.2", 5⟩] := by
  refine ⟨(get_epm_delete_msgs_spec epsEx histEx 5).2.trans (by decide), by decide⟩

/-- C4: while `epm_eof_tracking` is non-null it is cleared exactly when an
EPM EOF ack leaves no worker pending, or when the steady-state loop observes
`now ≥ epm_eof_start + MAX_EPM_BUILD_TIME`; on both paths exactly one
FABRIC_WATCH_RESUME is broadcast to the watcher channel, the tracking dict
becomes null and a "running" fabric event is recorded, the timeout path
additionally recording a warning event naming the pending worker ids. -/
theorem epm_eof_barrier (s : SubscriberState) (t : List (String × Bool)) (addr : String)
    (maxT now : Nat) (h : s.epm_eof_tracking = some t) :
    ((handle_fabric_epm_eof_ack s addr).epm_eof_tracking = none ↔
        pendingOf (markAck t addr) = [])
    ∧ (pendingOf (markAck t addr) = [] →
        (handle_fabric_epm_eof_ack s addr).broadcasts = s.broadcasts ++
          [⟨WATCHER_BROADCAST_CHANNEL, some "watcher", WorkType.FABRIC_WATCH_RESUME, [],
            s.watcher_broadcast_seq + 1⟩]
        ∧ (handle_fabric_epm_eof_ack s addr).fabric_events = s.fabric_events ++ [("running", "")]
        ∧ (handle_fabric_epm_eof_ack s addr).epm_eof_tracking = none)
    ∧ (pendingOf (markAck t addr) ≠ [] →
        (handle_fabric_epm_eof_ack s addr).broadcasts = s.broadcasts
        ∧ (handle_fabric_epm_eof_ack s addr).epm_eof_tracking = some (markAck t addr))
    ∧ (s.epm_eof_start + maxT ≤ now →
        (run_loop_epm_eof_check maxT s now).epm_eof_tracking = none
        ∧ (run_loop_epm_eof_check maxT s now).broadcasts = s.broadcasts ++
          [⟨WATCHER_BROADCAST_CHANNEL, some "watcher", WorkType.FABRIC_WATCH_RESUME, [],
            s.watcher_broadcast_seq + 1⟩]
        ∧ (run_loop_epm_eof_check maxT s now).fabric_events = s.fabric_events ++
          [("warning", "epm max build time(" ++ toString maxT ++
            ") exceeded while waiting for worker[" ++
            String.intercalate "," (pendingOf t) ++ "]"), ("running", "")]
        ∧ (∃ pre post : List Char,
            ("epm max build time(" ++ toString maxT ++ ") exceeded while waiting for worker["
              ++ String.intercalate "," (pendingOf t) ++ "]").data
            = pre ++ (String.intercalate "," (pendingOf t)).data ++ post))
    ∧ (¬ s.epm_eof_start + maxT ≤ now → run_loop_epm_eof_check maxT s now = s) := by
  refine ⟨?_, ?_, ?_, ?_, ?_⟩
  · by_cases hp : pendingOf (markAck t addr) = [] <;>
      simp [handle_fabric_epm_eof_ack, h, get_workers_with_pending_ack, hp, broadcast,
        add_fabric_event]
  · intro hp
    refine ⟨?_, ?_, ?_⟩ <;>
      simp [handle_fabric_epm_eof_ack, h, get_workers_with_pending_ack, hp, broadcast,
        add_fabric_event]
  · intro hp
    constructor <;>
      simp [handle_fabric_epm_eof_ack, h, get_workers_with_pending_ack, hp, broadcast,
        add_fabric_event]
  · intro hnow
    refine ⟨?_, ?_, ?_, ?_⟩
    · simp [run_loop_epm_eof_check, h, hnow, get_workers_with_pending_ack, broadcast,
        add_fabric_event]
    · simp [run_loop_epm_eof_check, h, hnow, get_workers_with_pending_ack, broadcast,
        add_fabric_event]
    · simp [run_loop_epm_eof_check, h, hnow, get_workers_with_pending_ack, broadcast,
        add_fabric_event]
    · refine ⟨("epm max build time(" ++ toString maxT ++
        ") exceeded while waiting for worker[").data, "]".data, ?_⟩
      simp [String.data_append]
  · intro hnow
    simp [run_loop_epm_eof_check, h, hnow]

/-- C4 witness: the ack from "w1" leaves nothing pending and clears the
barrier; independently, at time 610 ≥ 10 + 600 the timeout path clears it. -/
theorem epm_eof_barrier_witness :
    sEofEx.epm_eof_tracking = some [("w1", false)]
    ∧ (handle_fabric_epm_eof_ack sEofEx "w1").epm_eof_tracking = none
    ∧ (run_loop_epm_eof_check 600 sEofEx 610).epm_eof_tracking = none
    ∧ (run_loop_epm_eof_check 600 sEofEx 610).broadcasts.length = 1 := by
  have h := epm_eof_barrier sEofEx [("w1", false)] "w1" 600 610 (by decide)
  refine ⟨by decide, ?_, ?_, ?_⟩
  · exact (h.2.1 (by decide)).2.2
  · exact (h.2.2.2.1 (by decide)).1
  · rw [(h.2.2.2.1 (by decide)).2.1]
    decide

/-- C6: a soft restart whose rebuild phases all succeed (and that is not
dropped as stale) emits exactly four new broadcasts — FLUSH_CACHE work
items for eptNode, eptVpc, eptPc and eptTunnel, in that order — and its
database writes touch only eptNode, the three pc/vpc MO caches and
eptTunnel: none of the endpoint, endpoint-history, epg, vnid or subnet
collections is written. -/
theorem soft_restart_flush_frame (env : SoftRestartEnv) (s : SubscriberState)
    (ts : Option Nat) (reason : String)
    (hok : env.build_node_db_ok = true ∧ env.vpcRsVpcConf_ok = true ∧ env.pcAggrIf_ok = true
      ∧ env.pcRsMbrIfs_ok = true ∧ env.build_tunnel_db_ok = true)
    (hts : ∀ t, ts = some t → s.soft_restart_ts ≤ t) :
    (soft_restart env s ts reason).broadcasts.take s.broadcasts.length = s.broadcasts
    ∧ ((soft_restart env s ts reason).broadcasts.drop s.broadcasts.length).map
        (fun b => (b.work_type, b.data.lookup "cache"))
      = [(WorkType.FLUSH_CACHE, some (some "eptNode")),
         (WorkType.FLUSH_CACHE, some (some "eptVpc")),
         (WorkType.FLUSH_CACHE, some (some "eptPc")),
         (WorkType.FLUSH_CACHE, some (some "eptTunnel"))]
    ∧ (soft_restart env s ts reason).db_writes
        = s.db_writes ++ ["eptNode", "vpcRsVpcConf", "pcAggrIf", "pcRsMbrIfs", "eptTunnel"]
    ∧ ∀ c ∈ (["eptEndpoint", "eptHistory", "eptEpg", "eptVnid", "eptSubnet"] : List String),
        c ∉ (soft_restart env s ts reason).db_writes.drop s.db_writes.length := by
  obtain ⟨h1, h2, h3, h4, h5⟩ := hok
  have hbody : soft_restart env s ts reason = soft_restart_body env s reason := by
    cases ts with
    | none => rfl
    | some tv =>
      have hle := hts tv rfl
      simp [soft_restart, Nat.not_lt.mpr hle]
  rw [hbody]
  have hred : soft_restart_body env s reason =
      { s with initializing := false,
               fabric_events := s.fabric_events ++
                 [("soft-reset", reason), ("re-initializing", "building node db"),
                  ("re-initializing", "building tunnel db"), ("running", "")],
               db_writes := s.db_writes ++
                 ["eptNode", "vpcRsVpcConf", "pcAggrIf", "pcRsMbrIfs", "eptTunnel"],
               broadcasts := s.broadcasts ++
                 [⟨WORKER_BROADCAST_CHANNEL, some "worker",  WorkType.FLUSH_CACHE,
                    [("cache", some "eptNode"), ("name", none)], s.worker_broadcast_seq + 1⟩,
                  ⟨WORKER_BROADCAST_CHANNEL, some "worker", WorkType.FLUSH_CACHE,
                    [("cache", some "eptVpc"), ("name", none)], s.worker_broadcast_seq + 2⟩,
                  ⟨WORKER_BROADCAST_CHANNEL, some "worker", WorkType.FLUSH_CACHE,
                    [("cache", some "eptPc"), ("name", none)], s.worker_broadcast_seq + 3⟩,
                  ⟨WORKER_BROADCAST_CHANNEL, some "worker", WorkType.FLUSH_CACHE,
                    [("cache", some "eptTunnel"), ("name", none)], s.worker_broadcast_seq + 4⟩],
               worker_broadcast_seq := s.worker_broadcast_seq + 4 } := by
    simp [soft_restart_body, build_node_db, mo_rebuild, build_tunnel_db, h1, h2, h3, h4, h5,
      add_fabric_event, send_flush, broadcast]
  rw [hred]
  refine ⟨by simp [List.take_left], by simp [List.drop_left], by simp, ?_⟩
  intro c hc
  simp only [List.drop_left]
  simp only [List.mem_cons, List.mem_singleton, List.not_mem_nil] at hc ⊢
  rcases hc with rfl | rfl | rfl | rfl | rfl | hc
  · simp
  · simp
  · simp
  · simp
  · simp
  · exact hc.elim

/-- C6 witness: with every phase succeeding and no prior broadcasts, the
soft restart emits exactly the four flush broadcasts in order. -/
theorem soft_restart_flush_frame_witness :
    (envOkEx.build_node_db_ok = true ∧ envOkEx.vpcRsVpcConf_ok = true
      ∧ envOkEx.pcAggrIf_ok = true ∧ envOkEx.pcRsMbrIfs_ok = true
      ∧ envOkEx.build_tunnel_db_ok = true)
    ∧ ((soft_restart envOkEx s0Ex none "update").broadcasts.drop
          s0Ex.broadcasts.length).map (fun b => (b.work_type, b.data.lookup "cache"))
      = [(WorkType.FLUSH_CACHE, some (some "eptNode")),
         (WorkType.FLUSH_CACHE, some (some "eptVpc")),
         (WorkType.FLUSH_CACHE, some (some "eptPc")),
         (WorkType.FLUSH_CACHE, some (some "eptTunnel"))] := by
  refine ⟨⟨rfl, rfl, rfl, rfl, rfl⟩, ?_⟩
  exact (soft_restart_flush_frame envOkEx s0Ex none "update"
    ⟨rfl, rfl, rfl, rfl, rfl⟩ (fun t ht => by cases ht)).2.1

end EptSub
